import Mathlib

/-!
Verification of the intraday trade-simulation engine
(`modules/simulator.py` of the angelone repository).

The engine is shallowly embedded: money amounts are rationals (`ℚ`),
share counts are integers, and a bar's timestamp is a pair of a day
index and a minute-of-day (the source compares timestamps only against
same-day deadlines with zero seconds, so minute granularity is exact).
Dictionary lookups in the charges configuration are `Option`-valued,
mirroring Python's `KeyError` on a missing key: a failed lookup aborts
the run as an `Except.error` carrying the engine state at the moment
the exception was raised (in Python that state existed in the local
variables when the exception propagated).
-/

namespace AngelOne

/-- Transaction side, the `transaction_type` argument (`"BUY"` / `"SELL"`). -/
inductive TransType where
  | BUY
  | SELL
deriving DecidableEq, Repr

/-- Per-side rate table: the `charges_config[side]` dictionary.  Each rate is
percent, divided by 100 at use; a missing key is `none`. -/
structure SideRates where
  BROKERAGE : Option ℚ
  STT : Option ℚ
  TRANSACTION : Option ℚ
  SEBI : Option ℚ
  GST : Option ℚ
  STAMP : Option ℚ
deriving DecidableEq, Repr

/-- The `charges_config` dictionary, keyed by side. -/
structure ChargesConfig where
  buy : SideRates
  sell : SideRates
deriving DecidableEq, Repr

/-- `charges_config[transaction_type]`. -/
def ChargesConfig.ratesFor (cfg : ChargesConfig) : TransType → SideRates
  | .BUY => cfg.buy
  | .SELL => cfg.sell

/-- The dictionary returned by `calculate_transaction_charges`. -/
structure ChargesDetails where
  total : ℚ
  brokerage : ℚ
  stt : ℚ
  transaction_charge : ℚ
  sebi_charge : ℚ
  gst : ℚ
  stamp_duty : ℚ
deriving DecidableEq, Repr

/-- `calculate_transaction_charges` (simulator.py lines 7-27).  Lookups are
performed in source order; `STAMP` is looked up only on the BUY side (the
conditional expression on line 17 short-circuits for SELL). -/
def calculate_transaction_charges (price : ℚ) (quantity : ℤ)
    (transaction_type : TransType) (charges_config : ChargesConfig) :
    Option ChargesDetails := do
  let r := charges_config.ratesFor transaction_type
  let turnover : ℚ := price * quantity
  let brokerageRate ← r.BROKERAGE
  let brokerage := min (turnover * (brokerageRate / 100)) 20
  let sttRate ← r.STT
  let stt := turnover * (sttRate / 100)
  let transactionRate ← r.TRANSACTION
  let transaction_charge := turnover * (transactionRate / 100)
  let sebiRate ← r.SEBI
  let sebi_charge := turnover * (sebiRate / 100)
  let gstRate ← r.GST
  let gst := (brokerage + transaction_charge + sebi_charge) * (gstRate / 100)
  let stamp_duty ← match transaction_type with
    | .BUY => do
        let stampRate ← r.STAMP
        pure (turnover * (stampRate / 100))
    | .SELL => pure (0 : ℚ)
  let total_charges := brokerage + stt + transaction_charge + sebi_charge + gst + stamp_duty
  pure {
    total := total_charges
    brokerage := brokerage
    stt := stt
    transaction_charge := transaction_charge
    sebi_charge := sebi_charge
    gst := gst
    stamp_duty := stamp_duty }

/-- One input row of `data` as read by `simulate_trades`: the fields the loop
uses are `timestamp` (split into a day index and a minute-of-day), `close`,
`ATR`, `Buy_Signal` and `Sell_Signal`. -/
structure Bar where
  day : ℕ
  minute : ℕ
  close : ℚ
  ATR : ℚ
  Buy_Signal : Bool
  Sell_Signal : Bool
deriving DecidableEq, Repr

/-- `square_off_time` = 15:00 (market close 15:30 minus 30 minutes),
as a minute-of-day.  `timestamp >= square_off_time` becomes
`squareOffMinute ≤ bar.minute`. -/
def squareOffMinute : ℕ := 15 * 60

/-- `no_new_buys_time` = 14:30 (market close minus 60 minutes). -/
def noNewBuysMinute : ℕ := 14 * 60 + 30

/-- One element of the `long_positions` deque (the dict built on
simulator.py lines 146-153). -/
structure Position where
  shares : ℤ
  price : ℚ
  buy_charges : ℚ
  margin_used : ℚ
  target_price : ℚ
  trailing_stop_loss : ℚ
deriving DecidableEq, Repr

/-- One element of the `trades` list.  The per-component charge columns of
the source dict are carried inside `charges : ChargesDetails`. -/
structure TradeEvent where
  day : ℕ
  minute : ℕ
  type : String
  price : ℚ
  shares : ℤ
  profit_loss : ℚ
  charges : ChargesDetails
  reason : String
deriving DecidableEq, Repr

/-- One element of the `missed_signals` list. -/
structure MissedSignal where
  day : ℕ
  minute : ℕ
  price : ℚ
  reason : String
deriving DecidableEq, Repr

/-- One element of the `daily_summary` list. -/
structure DaySummary where
  date : ℕ
  start_of_day_capital : ℚ
  end_of_day_capital : ℚ
deriving DecidableEq, Repr

/-- The mutable locals of `simulate_trades` threaded through the bar loop.
`start_of_day_capital` is initialised to the initial capital; in the source
it is unassigned until the first day rollover, which always runs before any
read of it. -/
structure EngineState where
  capital : ℚ
  free_cash : ℚ
  total_profit_loss : ℚ
  total_revenue : ℚ
  total_cost : ℚ
  trades : List TradeEvent
  missed_signals : List MissedSignal
  daily_summary : List DaySummary
  long_positions : List Position
  current_day : Option ℕ
  start_of_day_capital : ℚ
  daily_margin_used : ℚ
  daily_profit_loss : ℚ
deriving DecidableEq, Repr

/-- The scalar parameters of `simulate_trades` (the data-frame argument is
passed separately as a `List Bar`; `indicator_config` and `historical_data`
are echoed into the summary only and carry no behavioural effect). -/
structure SimParams where
  initial_capital : ℚ
  trade_allocation : ℚ
  leverage : ℚ
  target_profit_percentage : ℚ
  atr_multiplier : ℚ
  charges_config : ChargesConfig
deriving DecidableEq, Repr

/-- The engine state before the first bar (simulator.py lines 50-61). -/
def initState (p : SimParams) : EngineState where
  capital := p.initial_capital
  free_cash := p.initial_capital
  total_profit_loss := 0
  total_revenue := 0
  total_cost := 0
  trades := []
  missed_signals := []
  daily_summary := []
  long_positions := []
  current_day := none
  start_of_day_capital := p.initial_capital
  daily_margin_used := 0
  daily_profit_loss := 0

/-- Close one position at `price`: the common body of the square-off block
(lines 80-107) and of the exit-evaluation block (lines 186-213).  The two
blocks differ in the trade `type`, the recorded reason, and in that only the
exit-evaluation block adds the sale revenue to `total_revenue` (line 195);
neither removes the position here (the callers manage the ledger). -/
def sellFill (cfg : ChargesConfig) (type reason : String) (addRevenue : Bool)
    (day minute : ℕ) (price : ℚ) (position : Position) (st : EngineState) :
    Except EngineState EngineState :=
  match calculate_transaction_charges price position.shares .SELL cfg with
  | none => .error st
  | some cd =>
      let sell_revenue := (position.shares : ℚ) * price - cd.total
      let cost := (position.shares : ℚ) * position.price + position.buy_charges
      let profit_loss := sell_revenue - cost
      .ok { st with
        total_profit_loss := st.total_profit_loss + profit_loss
        daily_profit_loss := st.daily_profit_loss + profit_loss
        total_revenue := if addRevenue then st.total_revenue + sell_revenue
                         else st.total_revenue
        capital := st.capital + profit_loss
        free_cash := st.free_cash + position.margin_used + sell_revenue
        trades := st.trades ++
          [({ day := day, minute := minute, type := type, price := price,
              shares := position.shares, profit_loss := profit_loss,
              charges := cd, reason := reason } : TradeEvent)] }

/-- The loop body of the square-off block: iterate over a snapshot of the
ledger, closing each position with reason `"Square Off Before Market Close"`
and trade type `"Square Off"` (and, as in the source, without adding to
`total_revenue`). -/
def squareOffLoop (cfg : ChargesConfig) (day minute : ℕ) (price : ℚ) :
    List Position → EngineState → Except EngineState EngineState
  | [], st => .ok st
  | position :: rest, st => do
      let st' ← sellFill cfg "Square Off" "Square Off Before Market Close"
        false day minute price position st
      squareOffLoop cfg day minute price rest st'

/-- The square-off block (lines 78-107): if the bar is at or past the
square-off deadline and the ledger is non-empty, close every position.
The source removes each position from the deque as it is processed; the
net effect on the ledger is that it becomes empty. -/
def squareOffPhase (cfg : ChargesConfig) (bar : Bar) (st : EngineState) :
    Except EngineState EngineState :=
  if squareOffMinute ≤ bar.minute ∧ st.long_positions ≠ [] then do
    let st' ← squareOffLoop cfg bar.day bar.minute bar.close st.long_positions st
    .ok { st' with long_positions := [] }
  else .ok st

/-- The day-rollover block (lines 109-123). -/
def rolloverPhase (bar : Bar) (st : EngineState) : EngineState :=
  if st.current_day ≠ some bar.day then
    let st1 :=
      match st.current_day with
      | none => st
      | some d =>
        { st with daily_summary := st.daily_summary ++
            [({ date := d, start_of_day_capital := st.start_of_day_capital,
                end_of_day_capital := st.capital } : DaySummary)] }
    { st1 with
      current_day := some bar.day
      start_of_day_capital := st1.capital
      free_cash := st1.capital
      daily_margin_used := 0
      daily_profit_loss := 0 }
  else st

/-- The buy-signal block (lines 131-171).  Note that when
`leveraged_buying_power ≥ price` but the floored share count is zero,
the source does nothing (no missed signal). -/
def buyPhase (p : SimParams) (bar : Bar) (st : EngineState) :
    Except EngineState EngineState :=
  if bar.Buy_Signal = true then
    let allocated_margin := st.free_cash * p.trade_allocation
    let leveraged_buying_power := allocated_margin * p.leverage
    if bar.close ≤ leveraged_buying_power then
      let shares_to_buy : ℤ := ⌊leveraged_buying_power / bar.close⌋
      if 0 < shares_to_buy then
        match calculate_transaction_charges bar.close shares_to_buy .BUY
            p.charges_config with
        | none => .error st
        | some cd =>
            let buy_cost := (shares_to_buy : ℚ) * bar.close + cd.total
            .ok { st with
              total_cost := st.total_cost + buy_cost
              free_cash := st.free_cash - allocated_margin
              daily_margin_used := st.daily_margin_used + allocated_margin
              long_positions := st.long_positions ++
                [({ shares := shares_to_buy, price := bar.close,
                    buy_charges := cd.total, margin_used := allocated_margin,
                    target_price :=
                      bar.close * (1 + p.target_profit_percentage / 100),
                    trailing_stop_loss :=
                      bar.close - bar.ATR * p.atr_multiplier } : Position)]
              trades := st.trades ++
                [({ day := bar.day, minute := bar.minute, type := "Buy",
                    price := bar.close, shares := shares_to_buy,
                    profit_loss := 0, charges := cd,
                    reason := "Buy Signal" } : TradeEvent)] }
      else .ok st
    else .ok { st with missed_signals := st.missed_signals ++
      [({ day := bar.day, minute := bar.minute, price := bar.close,
          reason := "Insufficient Funds" } : MissedSignal)] }
  else .ok st

/-- The exit-reason priority chain (lines 176-184). -/
def exitReason (sellSignal : Bool) (price : ℚ) (minute : ℕ)
    (position : Position) : Option String :=
  if sellSignal = true then some "Sell Signal Triggered"
  else if position.target_price ≤ price then some "Target Profit Reached"
  else if price ≤ position.trailing_stop_loss then
    some "Trailing Stop-Loss Triggered"
  else if squareOffMinute ≤ minute then some "Square Off Before Market Close"
  else none

/-- The loop body of the exit-evaluation block (lines 175-214): iterate over
a snapshot of the ledger; a position with a matching reason is sold (trade
type `"Sell"`, revenue added to `total_revenue`) and dropped, the others are
kept in order.  Returns the updated state and the kept positions. -/
def exitLoop (cfg : ChargesConfig) (day minute : ℕ) (price : ℚ)
    (sellSignal : Bool) :
    List Position → EngineState → Except EngineState (EngineState × List Position)
  | [], st => .ok (st, [])
  | position :: rest, st =>
      match exitReason sellSignal price minute position with
      | none => do
          let (st', kept) ← exitLoop cfg day minute price sellSignal rest st
          .ok (st', position :: kept)
      | some reason => do
          let st' ← sellFill cfg "Sell" reason true day minute price position st
          exitLoop cfg day minute price sellSignal rest st'

/-- The exit-evaluation block (lines 173-214), guarded by
`if long_positions:`. -/
def exitPhase (cfg : ChargesConfig) (bar : Bar) (st : EngineState) :
    Except EngineState EngineState :=
  if st.long_positions ≠ [] then do
    let (st', kept) ← exitLoop cfg bar.day bar.minute bar.close
      bar.Sell_Signal st.long_positions st
    .ok { st' with long_positions := kept }
  else .ok st

/-- One iteration of the bar loop (lines 68-214), in source order:
square-off block, day rollover, buy gating (whose `continue` on line 129
skips the buy and exit blocks for the bar), buy block, exit block. -/
def processBar (p : SimParams) (st : EngineState) (bar : Bar) :
    Except EngineState EngineState := do
  let st1 ← squareOffPhase p.charges_config bar st
  let st2 := rolloverPhase bar st1
  if noNewBuysMinute ≤ bar.minute ∧ bar.Buy_Signal = true then
    .ok { st2 with missed_signals := st2.missed_signals ++
      [({ day := bar.day, minute := bar.minute, price := bar.close,
          reason := "Buy restricted near market close" } : MissedSignal)] }
  else do
    let st3 ← buyPhase p bar st2
    exitPhase p.charges_config bar st3

/-- The bar loop, threading the index of the bar being processed so that a
raised lookup error reports where the run aborted. -/
def runBarsFrom (p : SimParams) :
    EngineState → ℕ → List Bar → Except (ℕ × EngineState) EngineState
  | st, _, [] => .ok st
  | st, i, bar :: rest =>
      match processBar p st bar with
      | .error e => .error (i, e)
      | .ok st' => runBarsFrom p st' (i + 1) rest

/-- Run the whole bar loop from the initial state. -/
def runBars (p : SimParams) (bars : List Bar) :
    Except (ℕ × EngineState) EngineState :=
  runBarsFrom p (initState p) 0 bars

/-- The `final_summary` dictionary (lines 236-257); the echoed indicator and
historical-data metadata are omitted as purely informational. -/
structure FinalSummary where
  final_capital : ℚ
  total_profit_loss : ℚ
  total_revenue : ℚ
  total_cost : ℚ
  initial_capital : ℚ
  current_stock_holding : ℤ
deriving DecidableEq, Repr

/-- The four return values of `simulate_trades`. -/
structure SimResult where
  trades : List TradeEvent
  missed_signals : List MissedSignal
  daily_summary : List DaySummary
  final_summary : FinalSummary
deriving DecidableEq, Repr

/-- `simulate_trades` (lines 29-259): run the bar loop, finalise the last
day's summary, and build the final summary; `final_capital` is computed as
`initial_capital + total_profit_loss` (line 225). -/
def simulate_trades (p : SimParams) (bars : List Bar) :
    Except (ℕ × EngineState) SimResult :=
  match runBars p bars with
  | .error e => .error e
  | .ok st =>
      let st' :=
        match st.current_day with
        | none => st
        | some d =>
          { st with daily_summary := st.daily_summary ++
              [({ date := d, start_of_day_capital := st.start_of_day_capital,
                  end_of_day_capital := st.capital } : DaySummary)] }
      .ok {
        trades := st'.trades
        missed_signals := st'.missed_signals
        daily_summary := st'.daily_summary
        final_summary := {
          final_capital := p.initial_capital + st.total_profit_loss
          total_profit_loss := st.total_profit_loss
          total_revenue := st.total_revenue
          total_cost := st.total_cost
          initial_capital := p.initial_capital
          current_stock_holding := (st.long_positions.map Position.shares).sum } }

/-! ## Helper lemmas about the charges calculator -/

/-- Closed form of `calculate_transaction_charges` when every required rate
is present for the given side. -/
theorem charges_formula (price : ℚ) (quantity : ℤ) (side : TransType)
    (cfg : ChargesConfig) (b s t se g sd : ℚ)
    (hb : (cfg.ratesFor side).BROKERAGE = some b)
    (hs : (cfg.ratesFor side).STT = some s)
    (ht : (cfg.ratesFor side).TRANSACTION = some t)
    (hse : (cfg.ratesFor side).SEBI = some se)
    (hg : (cfg.ratesFor side).GST = some g)
    (hsd : (cfg.ratesFor side).STAMP = some sd) :
    calculate_transaction_charges price quantity side cfg =
      some {
        total := min (price * quantity * (b / 100)) 20
          + price * quantity * (s / 100)
          + price * quantity * (t / 100)
          + price * quantity * (se / 100)
          + (min (price * quantity * (b / 100)) 20
              + price * quantity * (t / 100)
              + price * quantity * (se / 100)) * (g / 100)
          + (if side = .BUY then price * quantity * (sd / 100) else 0)
        brokerage := min (price * quantity * (b / 100)) 20
        stt := price * quantity * (s / 100)
        transaction_charge := price * quantity * (t / 100)
        sebi_charge := price * quantity * (se / 100)
        gst := (min (price * quantity * (b / 100)) 20
          + price * quantity * (t / 100)
          + price * quantity * (se / 100)) * (g / 100)
        stamp_duty := if side = .BUY then price * quantity * (sd / 100) else 0 } := by
  cases side <;>
    simp_all [calculate_transaction_charges, ChargesConfig.ratesFor,
      Option.bind, bind, pure]

/-- C5: with a complete rate table, a positive price and a positive integer
quantity, the charges breakdown satisfies the componentwise contract:
turnover is price × quantity, brokerage is min(turnover × rate, 20) with the
cap the fixed constant 20, the three turnover-proportional components are
turnover × rate, tax-on-fees (GST) applies to brokerage + transaction +
regulatory charges, stamp duty is buy-side only, and the total is the sum of
all components. -/
theorem C5_charges_breakdown (price : ℚ) (quantity : ℤ) (side : TransType)
    (cfg : ChargesConfig) (b s t se g sd : ℚ)
    (hb : (cfg.ratesFor side).BROKERAGE = some b)
    (hs : (cfg.ratesFor side).STT = some s)
    (ht : (cfg.ratesFor side).TRANSACTION = some t)
    (hse : (cfg.ratesFor side).SEBI = some se)
    (hg : (cfg.ratesFor side).GST = some g)
    (hsd : (cfg.ratesFor side).STAMP = some sd)
    (hprice : 0 < price) (hqty : 0 < quantity) :
    ∃ d, calculate_transaction_charges price quantity side cfg = some d ∧
      d.brokerage = min (price * quantity * (b / 100)) 20 ∧
      d.stt = price * quantity * (s / 100) ∧
      d.transaction_charge = price * quantity * (t / 100) ∧
      d.sebi_charge = price * quantity * (se / 100) ∧
      d.gst = (d.brokerage + d.transaction_charge + d.sebi_charge) * (g / 100) ∧
      d.stamp_duty = (if side = .BUY then price * quantity * (sd / 100) else 0) ∧
      d.total = d.brokerage + d.stt + d.transaction_charge + d.sebi_charge
        + d.gst + d.stamp_duty := by
  refine ⟨_, charges_formula price quantity side cfg b s t se g sd
    hb hs ht hse hg hsd, ?_⟩
  exact ⟨rfl, rfl, rfl, rfl, rfl, rfl, rfl⟩

/-- A concrete complete rate table used by several witnesses: brokerage
0.03 percent, STT 0.025, transaction 0.00325, SEBI 0.0001, GST 18,
stamp 0.003 percent on both sides. -/
def cfgStd : ChargesConfig :=
  { buy := ⟨some (3/100), some (25/1000), some (325/100000), some (1/10000),
      some 18, some (3/1000)⟩,
    sell := ⟨some (3/100), some (25/1000), some (325/100000), some (1/10000),
      some 18, some (3/1000)⟩ }

/-- Witness for C5 at a concrete fill. -/
theorem C5_charges_breakdown_witness :
    ∃ d, calculate_transaction_charges 100 10 .BUY cfgStd = some d ∧
      d.brokerage = min ((100 : ℚ) * 10 * ((3/100) / 100)) 20 ∧
      d.stt = (100 : ℚ) * 10 * ((25/1000) / 100) ∧
      d.transaction_charge = (100 : ℚ) * 10 * ((325/100000) / 100) ∧
      d.sebi_charge = (100 : ℚ) * 10 * ((1/10000) / 100) ∧
      d.gst = (d.brokerage + d.transaction_charge + d.sebi_charge) * ((18 : ℚ) / 100) ∧
      d.stamp_duty = (if TransType.BUY = TransType.BUY
        then (100 : ℚ) * 10 * ((3/1000) / 100) else 0) ∧
      d.total = d.brokerage + d.stt + d.transaction_charge + d.sebi_charge
        + d.gst + d.stamp_duty :=
  C5_charges_breakdown 100 10 .BUY cfgStd (3/100) (25/1000) (325/100000)
    (1/10000) 18 (3/1000) rfl rfl rfl rfl rfl rfl (by norm_num) (by norm_num)

/-- C6: for fixed non-negative rates and a fixed side, the total charge is
monotonically non-decreasing in turnover, and the brokerage component never
exceeds the fixed cap 20. -/
theorem C6_charges_monotone (p1 p2 : ℚ) (q1 q2 : ℤ) (side : TransType)
    (cfg : ChargesConfig) (b s t se g sd : ℚ)
    (hb : (cfg.ratesFor side).BROKERAGE = some b)
    (hs : (cfg.ratesFor side).STT = some s)
    (ht : (cfg.ratesFor side).TRANSACTION = some t)
    (hse : (cfg.ratesFor side).SEBI = some se)
    (hg : (cfg.ratesFor side).GST = some g)
    (hsd : (cfg.ratesFor side).STAMP = some sd)
    (hb0 : 0 ≤ b) (hs0 : 0 ≤ s) (ht0 : 0 ≤ t) (hse0 : 0 ≤ se) (hg0 : 0 ≤ g)
    (hsd0 : 0 ≤ sd) (d1 d2 : ChargesDetails)
    (h1 : calculate_transaction_charges p1 q1 side cfg = some d1)
    (h2 : calculate_transaction_charges p2 q2 side cfg = some d2)
    (hturnover : p1 * q1 ≤ p2 * q2) :
    d1.total ≤ d2.total ∧ d1.brokerage ≤ 20 := by
  rw [charges_formula p1 q1 side cfg b s t se g sd hb hs ht hse hg hsd,
    Option.some_inj] at h1
  rw [charges_formula p2 q2 side cfg b s t se g sd hb hs ht hse hg hsd,
    Option.some_inj] at h2
  subst h1
  subst h2
  have hbrok : min (p1 * q1 * (b / 100)) 20 ≤ min (p2 * q2 * (b / 100)) 20 :=
    min_le_min (mul_le_mul_of_nonneg_right hturnover (by positivity)) le_rfl
  have hlin : ∀ r : ℚ, 0 ≤ r →
      p1 * q1 * (r / 100) ≤ p2 * q2 * (r / 100) := fun r hr =>
    mul_le_mul_of_nonneg_right hturnover (by positivity)
  have hgst : (min (p1 * q1 * (b / 100)) 20 + p1 * q1 * (t / 100)
        + p1 * q1 * (se / 100)) * (g / 100)
      ≤ (min (p2 * q2 * (b / 100)) 20 + p2 * q2 * (t / 100)
        + p2 * q2 * (se / 100)) * (g / 100) :=
    mul_le_mul_of_nonneg_right
      (add_le_add (add_le_add hbrok (hlin t ht0)) (hlin se hse0))
      (by positivity)
  have hstamp : (if side = .BUY then p1 * q1 * (sd / 100) else 0)
      ≤ (if side = .BUY then p2 * q2 * (sd / 100) else 0) := by
    split
    · exact hlin sd hsd0
    · exact le_rfl
  constructor
  · exact add_le_add (add_le_add (add_le_add (add_le_add
      (add_le_add hbrok (hlin s hs0)) (hlin t ht0)) (hlin se hse0))
      hgst) hstamp
  · exact min_le_right _ _

/-- Witness for C6 at two concrete fills with growing turnover. -/
theorem C6_charges_monotone_witness :
    ∃ d1 d2, calculate_transaction_charges 100 10 .SELL cfgStd = some d1 ∧
      calculate_transaction_charges 200 15 .SELL cfgStd = some d2 ∧
      d1.total ≤ d2.total ∧ d1.brokerage ≤ 20 := by
  refine ⟨_, _, charges_formula 100 10 .SELL cfgStd (3/100) (25/1000)
    (325/100000) (1/10000) 18 (3/1000) rfl rfl rfl rfl rfl rfl,
    charges_formula 200 15 .SELL cfgStd (3/100) (25/1000) (325/100000)
    (1/10000) 18 (3/1000) rfl rfl rfl rfl rfl rfl, ?_⟩
  exact C6_charges_monotone 100 200 10 15 .SELL cfgStd (3/100) (25/1000)
    (325/100000) (1/10000) 18 (3/1000) rfl rfl rfl rfl rfl rfl
    (by norm_num) (by norm_num) (by norm_num) (by norm_num) (by norm_num)
    (by norm_num) _ _
    (charges_formula 100 10 .SELL cfgStd (3/100) (25/1000) (325/100000)
      (1/10000) 18 (3/1000) rfl rfl rfl rfl rfl rfl)
    (charges_formula 200 15 .SELL cfgStd (3/100) (25/1000) (325/100000)
      (1/10000) 18 (3/1000) rfl rfl rfl rfl rfl rfl)
    (by norm_num)

/-! ## The capital accounting invariant -/

/-- `sellFill` moves `capital` and `total_profit_loss` in lockstep. -/
theorem sellFill_diff (cfg : ChargesConfig) (type reason : String)
    (addRevenue : Bool) (day minute : ℕ) (price : ℚ) (position : Position)
    (st st' : EngineState)
    (h : sellFill cfg type reason addRevenue day minute price position st
      = .ok st') :
    st'.capital - st'.total_profit_loss
      = st.capital - st.total_profit_loss := by
  unfold sellFill at h
  cases hc : calculate_transaction_charges price position.shares .SELL cfg with
  | none => rw [hc] at h; cases h
  | some cd =>
      rw [hc] at h
      injection h with h
      subst h
      dsimp only
      ring

/-- The square-off loop preserves `capital - total_profit_loss`. -/
theorem squareOffLoop_diff (cfg : ChargesConfig) (day minute : ℕ) (price : ℚ) :
    ∀ (ps : List Position) (st st' : EngineState),
    squareOffLoop cfg day minute price ps st = .ok st' →
    st'.capital - st'.total_profit_loss
      = st.capital - st.total_profit_loss := by
  intro ps
  induction ps with
  | nil =>
      intro st st' h
      unfold squareOffLoop at h
      injection h with h
      subst h
      rfl
  | cons position rest ih =>
      intro st st' h
      unfold squareOffLoop at h
      simp only [bind, Except.bind] at h
      cases hsf : sellFill cfg "Square Off" "Square Off Before Market Close"
          false day minute price position st with
      | error e => rw [hsf] at h; cases h
      | ok st1 =>
          rw [hsf] at h
          rw [ih st1 st' h, sellFill_diff _ _ _ _ _ _ _ _ _ _ hsf]

/-- The exit-evaluation loop preserves `capital - total_profit_loss`. -/
theorem exitLoop_diff (cfg : ChargesConfig) (day minute : ℕ) (price : ℚ)
    (sellSignal : Bool) :
    ∀ (ps : List Position) (st st' : EngineState) (kept : List Position),
    exitLoop cfg day minute price sellSignal ps st = .ok (st', kept) →
    st'.capital - st'.total_profit_loss
      = st.capital - st.total_profit_loss := by
  intro ps
  induction ps with
  | nil =>
      intro st st' kept h
      unfold exitLoop at h
      injection h with h
      injection h with h1 h2
      subst h1
      rfl
  | cons position rest ih =>
      intro st st' kept h
      unfold exitLoop at h
      cases hr : exitReason sellSignal price minute position with
      | none =>
          rw [hr] at h
          simp only [bind, Except.bind] at h
          cases hrec : exitLoop cfg day minute price sellSignal rest st with
          | error e => rw [hrec] at h; cases h
          | ok pr =>
              obtain ⟨st1, kept1⟩ := pr
              rw [hrec] at h
              injection h with h
              injection h with h1 h2
              subst h1
              exact ih st st1 kept1 hrec
      | some reason =>
          rw [hr] at h
          simp only [bind, Except.bind] at h
          cases hsf : sellFill cfg "Sell" reason true day minute price
              position st with
          | error e => rw [hsf] at h; cases h
          | ok st1 =>
              rw [hsf] at h
              rw [ih st1 st' kept h, sellFill_diff _ _ _ _ _ _ _ _ _ _ hsf]

/-- The day rollover changes neither capital, profit/loss totals, trades,
positions nor missed signals. -/
theorem rolloverPhase_fields (bar : Bar) (st : EngineState) :
    (rolloverPhase bar st).capital = st.capital ∧
    (rolloverPhase bar st).total_profit_loss = st.total_profit_loss ∧
    (rolloverPhase bar st).trades = st.trades ∧
    (rolloverPhase bar st).long_positions = st.long_positions ∧
    (rolloverPhase bar st).missed_signals = st.missed_signals := by
  unfold rolloverPhase
  split
  · rcases hc : st.current_day with _ | d <;> simp [hc]
  · exact ⟨rfl, rfl, rfl, rfl, rfl⟩

/-- The buy block changes neither capital nor cumulative profit/loss. -/
theorem buyPhase_capital (p : SimParams) (bar : Bar) (st st' : EngineState)
    (h : buyPhase p bar st = .ok st') :
    st'.capital = st.capital ∧
    st'.total_profit_loss = st.total_profit_loss := by
  unfold buyPhase at h
  dsimp only at h
  repeat' split at h
  all_goals
    first
      | (injection h with h; subst h; exact ⟨rfl, rfl⟩)
      | cases h

/-- The square-off block preserves `capital - total_profit_loss`. -/
theorem squareOffPhase_diff (cfg : ChargesConfig) (bar : Bar)
    (st st' : EngineState) (h : squareOffPhase cfg bar st = .ok st') :
    st'.capital - st'.total_profit_loss
      = st.capital - st.total_profit_loss := by
  unfold squareOffPhase at h
  split at h
  · simp only [bind, Except.bind] at h
    cases hl : squareOffLoop cfg bar.day bar.minute bar.close
        st.long_positions st with
    | error e => rw [hl] at h; cases h
    | ok st1 =>
        rw [hl] at h
        injection h with h
        subst h
        exact squareOffLoop_diff cfg bar.day bar.minute bar.close
          st.long_positions st st1 hl
  · injection h with h
    subst h
    rfl

/-- The exit-evaluation block preserves `capital - total_profit_loss`. -/
theorem exitPhase_diff (cfg : ChargesConfig) (bar : Bar)
    (st st' : EngineState) (h : exitPhase cfg bar st = .ok st') :
    st'.capital - st'.total_profit_loss
      = st.capital - st.total_profit_loss := by
  unfold exitPhase at h
  split at h
  · simp only [bind, Except.bind] at h
    cases hl : exitLoop cfg bar.day bar.minute bar.close bar.Sell_Signal
        st.long_positions st with
    | error e => rw [hl] at h; cases h
    | ok pr =>
        obtain ⟨st1, kept⟩ := pr
        rw [hl] at h
        injection h with h
        subst h
        exact exitLoop_diff cfg bar.day bar.minute bar.close bar.Sell_Signal
          st.long_positions st st1 kept hl
  · injection h with h
    subst h
    rfl

/-- One bar preserves `capital - total_profit_loss`. -/
theorem processBar_diff (p : SimParams) (st : EngineState) (bar : Bar)
    (st' : EngineState) (h : processBar p st bar = .ok st') :
    st'.capital - st'.total_profit_loss
      = st.capital - st.total_profit_loss := by
  unfold processBar at h
  simp only [bind, Except.bind] at h
  cases hsq : squareOffPhase p.charges_config bar st with
  | error e => rw [hsq] at h; dsimp only at h; cases h
  | ok st1 =>
      rw [hsq] at h
      dsimp only at h
      have hro := rolloverPhase_fields bar st1
      have hsqd := squareOffPhase_diff p.charges_config bar st st1 hsq
      split at h
      · injection h with h
        subst h
        dsimp only
        rw [hro.1, hro.2.1, hsqd]
      · cases hb : buyPhase p bar (rolloverPhase bar st1) with
        | error e => rw [hb] at h; dsimp only at h; cases h
        | ok st2 =>
            rw [hb] at h
            dsimp only at h
            have hbc := buyPhase_capital p bar (rolloverPhase bar st1) st2 hb
            have hed := exitPhase_diff p.charges_config bar st2 st' h
            rw [hed, hbc.1, hbc.2, hro.1, hro.2.1, hsqd]

/-- The bar loop preserves `capital - total_profit_loss`. -/
theorem runBarsFrom_diff (p : SimParams) :
    ∀ (bars : List Bar) (st : EngineState) (i : ℕ) (st' : EngineState),
    runBarsFrom p st i bars = .ok st' →
    st'.capital - st'.total_profit_loss
      = st.capital - st.total_profit_loss := by
  intro bars
  induction bars with
  | nil =>
      intro st i st' h
      unfold runBarsFrom at h
      injection h with h
      subst h
      rfl
  | cons bar rest ih =>
      intro st i st' h
      unfold runBarsFrom at h
      cases hp : processBar p st bar with
      | error e => rw [hp] at h; cases h
      | ok st1 =>
          rw [hp] at h
          rw [ih st1 (i + 1) st' h, processBar_diff p st bar st1 hp]

/-- C3: after every bar of every run the engine's running capital equals
`initial_capital` plus the cumulative realized profit/loss (every prefix of
the bar sequence is itself a run, so the invariant holds at every bar
boundary), and the final summary's final capital equals
`initial_capital + total_profit_loss` exactly. -/
theorem C3_capital_invariant :
    (∀ (p : SimParams) (bars : List Bar) (st' : EngineState),
      runBars p bars = .ok st' →
      st'.capital = p.initial_capital + st'.total_profit_loss) ∧
    (∀ (p : SimParams) (bars : List Bar) (res : SimResult),
      simulate_trades p bars = .ok res →
      res.final_summary.final_capital
        = res.final_summary.initial_capital
          + res.final_summary.total_profit_loss) := by
  constructor
  · intro p bars st' h
    have hd := runBarsFrom_diff p bars (initState p) 0 st' h
    simp only [initState] at hd
    linarith [hd]
  · intro p bars res h
    unfold simulate_trades at h
    cases hr : runBars p bars with
    | error e => rw [hr] at h; cases h
    | ok st =>
        rw [hr] at h
        dsimp only at h
        injection h with h
        subst h
        rfl

/-- Simple parameters shared by several witnesses. -/
def pW : SimParams :=
  { initial_capital := 1000, trade_allocation := 1/2, leverage := 1,
    target_profit_percentage := 5, atr_multiplier := 1,
    charges_config := cfgStd }

/-- A quiet bar: mid-morning, no signals. -/
def barQuiet : Bar :=
  { day := 0, minute := 600, close := 100, ATR := 1,
    Buy_Signal := false, Sell_Signal := false }

/-- The engine state after processing `barQuiet` from the initial state:
only the day rollover fires. -/
def stQuiet : EngineState :=
  { capital := 1000, free_cash := 1000, total_profit_loss := 0,
    total_revenue := 0, total_cost := 0, trades := [], missed_signals := [],
    daily_summary := [], long_positions := [], current_day := some 0,
    start_of_day_capital := 1000, daily_margin_used := 0,
    daily_profit_loss := 0 }

/-- Witness for C3 on a concrete one-bar run. -/
theorem C3_capital_invariant_witness :
    stQuiet.capital = pW.initial_capital + stQuiet.total_profit_loss :=
  C3_capital_invariant.1 pW [barQuiet] stQuiet (by rfl)

/-! ## Exit-reason priority -/

/-- Any trade event appended by `sellFill` carries the reason it was
called with. -/
theorem sellFill_reason (cfg : ChargesConfig) (type reason : String)
    (addRevenue : Bool) (day minute : ℕ) (price : ℚ) (position : Position)
    (st st' : EngineState)
    (h : sellFill cfg type reason addRevenue day minute price position st
      = .ok st') :
    ∀ e ∈ st'.trades, e ∈ st.trades ∨ e.reason = reason := by
  unfold sellFill at h
  cases hc : calculate_transaction_charges price position.shares .SELL cfg with
  | none => rw [hc] at h; cases h
  | some cd =>
      rw [hc] at h
      injection h with h
      subst h
      intro e he
      dsimp only at he
      rw [List.mem_append] at he
      rcases he with he | he
      · exact Or.inl he
      · rw [List.mem_singleton] at he
        subst he
        exact Or.inr rfl

/-- C2: the exit reason is the first match of the fixed priority chain —
sell signal, then target reached, then trailing stop, then square-off
deadline — in particular, with the sell signal unset and price at or above
target, the recorded reason is `"Target Profit Reached"`; and every trade
event appended by the exit-evaluation loop carries the `exitReason` of one
of the evaluated positions. -/
theorem C2_exit_priority :
    (∀ (sellSignal : Bool) (price : ℚ) (minute : ℕ) (position : Position),
      (sellSignal = true →
        exitReason sellSignal price minute position
          = some "Sell Signal Triggered") ∧
      (sellSignal = false → position.target_price ≤ price →
        exitReason sellSignal price minute position
          = some "Target Profit Reached") ∧
      (sellSignal = false → ¬position.target_price ≤ price →
        price ≤ position.trailing_stop_loss →
        exitReason sellSignal price minute position
          = some "Trailing Stop-Loss Triggered") ∧
      (sellSignal = false → ¬position.target_price ≤ price →
        ¬price ≤ position.trailing_stop_loss → squareOffMinute ≤ minute →
        exitReason sellSignal price minute position
          = some "Square Off Before Market Close") ∧
      (sellSignal = false → ¬position.target_price ≤ price →
        ¬price ≤ position.trailing_stop_loss → minute < squareOffMinute →
        exitReason sellSignal price minute position = none)) ∧
    (∀ (cfg : ChargesConfig) (day minute : ℕ) (price : ℚ) (sellSignal : Bool)
      (ps : List Position) (st st1 : EngineState) (kept : List Position),
      exitLoop cfg day minute price sellSignal ps st = .ok (st1, kept) →
      ∀ e ∈ st1.trades, e ∈ st.trades ∨
        ∃ position ∈ ps,
          exitReason sellSignal price minute position = some e.reason) := by
  constructor
  · intro sellSignal price minute position
    refine ⟨?_, ?_, ?_, ?_, ?_⟩
    · intro h1
      simp [exitReason, h1]
    · intro h1 h2
      simp [exitReason, h1, h2]
    · intro h1 h2 h3
      simp [exitReason, h1, h2, h3]
    · intro h1 h2 h3 h4
      simp [exitReason, h1, h2, h3, h4]
    · intro h1 h2 h3 h4
      simp [exitReason, h1, h2, h3, Nat.not_le.mpr h4]
  · intro cfg day minute price sellSignal ps
    induction ps with
    | nil =>
        intro st st1 kept h
        unfold exitLoop at h
        injection h with h
        injection h with h1 h2
        subst h1
        intro e he
        exact Or.inl he
    | cons position rest ih =>
        intro st st1 kept h
        unfold exitLoop at h
        cases hr : exitReason sellSignal price minute position with
        | none =>
            rw [hr] at h
            simp only [bind, Except.bind] at h
            cases hrec : exitLoop cfg day minute price sellSignal rest st with
            | error e => rw [hrec] at h; cases h
            | ok pr =>
                obtain ⟨stm, keptm⟩ := pr
                rw [hrec] at h
                injection h with h
                injection h with h1 h2
                subst h1
                intro e he
                rcases ih st stm keptm hrec e he with he' | ⟨q, hq, hqe⟩
                · exact Or.inl he'
                · exact Or.inr ⟨q, List.mem_cons_of_mem _ hq, hqe⟩
        | some reason =>
            rw [hr] at h
            simp only [bind, Except.bind] at h
            cases hsf : sellFill cfg "Sell" reason true day minute price
                position st with
            | error e => rw [hsf] at h; cases h
            | ok stm =>
                rw [hsf] at h
                intro e he
                rcases ih stm st1 kept h e he with he' | ⟨q, hq, hqe⟩
                · rcases sellFill_reason cfg "Sell" reason true day minute
                      price position st stm hsf e he' with he'' | he''
                  · exact Or.inl he''
                  · refine Or.inr ⟨position, List.mem_cons_self _ _, ?_⟩
                    rw [hr, he'']
                · exact Or.inr ⟨q, List.mem_cons_of_mem _ hq, hqe⟩

/-- A concrete open position used by witnesses: entry at 100, target 105,
trailing stop 99. -/
def posW : Position :=
  { shares := 10, price := 100, buy_charges := 0, margin_used := 500,
    target_price := 105, trailing_stop_loss := 99 }

/-- Witness for C2: with no sell signal and price 110 ≥ target 105, the
reason is `"Target Profit Reached"`. -/
theorem C2_exit_priority_witness :
    exitReason false 110 600 posW = some "Target Profit Reached" :=
  (C2_exit_priority.1 false 110 600 posW).2.1 rfl (by norm_num [posW])

/-! ## Square-off behaviour -/

/-- `sellFill` appends exactly one trade event, carrying the given type,
reason and fill price, and touches neither the ledger, the missed signals,
the day summaries nor the day marker. -/
theorem sellFill_spec (cfg : ChargesConfig) (type reason : String)
    (addRevenue : Bool) (day minute : ℕ) (price : ℚ) (position : Position)
    (st st' : EngineState)
    (h : sellFill cfg type reason addRevenue day minute price position st
      = .ok st') :
    st'.long_positions = st.long_positions ∧
    st'.missed_signals = st.missed_signals ∧
    st'.daily_summary = st.daily_summary ∧
    st'.current_day = st.current_day ∧
    st'.start_of_day_capital = st.start_of_day_capital ∧
    ∃ e, st'.trades = st.trades ++ [e] ∧
      e.type = type ∧ e.reason = reason ∧ e.price = price := by
  unfold sellFill at h
  cases hc : calculate_transaction_charges price position.shares .SELL cfg with
  | none => rw [hc] at h; cases h
  | some cd =>
      rw [hc] at h
      injection h with h
      subst h
      exact ⟨rfl, rfl, rfl, rfl, rfl, _, rfl, rfl, rfl, rfl⟩

/-- The square-off loop appends one `"Square Off"` event per processed
position and preserves the other ledgers. -/
theorem squareOffLoop_spec (cfg : ChargesConfig) (day minute : ℕ)
    (price : ℚ) :
    ∀ (ps : List Position) (st st' : EngineState),
    squareOffLoop cfg day minute price ps st = .ok st' →
    st'.long_positions = st.long_positions ∧
    st'.missed_signals = st.missed_signals ∧
    st'.daily_summary = st.daily_summary ∧
    st'.current_day = st.current_day ∧
    st'.start_of_day_capital = st.start_of_day_capital ∧
    ∃ new, st'.trades = st.trades ++ new ∧ new.length = ps.length ∧
      ∀ e ∈ new, e.type = "Square Off" ∧
        e.reason = "Square Off Before Market Close" ∧ e.price = price := by
  intro ps
  induction ps with
  | nil =>
      intro st st' h
      unfold squareOffLoop at h
      injection h with h
      subst h
      exact ⟨rfl, rfl, rfl, rfl, rfl, [], by simp, rfl, by simp⟩
  | cons position rest ih =>
      intro st st' h
      unfold squareOffLoop at h
      simp only [bind, Except.bind] at h
      cases hsf : sellFill cfg "Square Off" "Square Off Before Market Close"
          false day minute price position st with
      | error e => rw [hsf] at h; cases h
      | ok st1 =>
          rw [hsf] at h
          obtain ⟨hp1, hm1, hd1, hc1, hs1, e, he1, het, her, hep⟩ :=
            sellFill_spec cfg "Square Off" "Square Off Before Market Close"
              false day minute price position st st1 hsf
          obtain ⟨hp2, hm2, hd2, hc2, hs2, new, hn1, hn2, hn3⟩ :=
            ih st1 st' h
          refine ⟨hp2.trans hp1, hm2.trans hm1, hd2.trans hd1, hc2.trans hc1,
            hs2.trans hs1, e :: new, ?_, by simp [hn2], ?_⟩
          · rw [hn1, he1]
            simp
          · intro f hf
            rcases List.mem_cons.mp hf with hf | hf
            · subst hf
              exact ⟨het, her, hep⟩
            · exact hn3 f hf

/-- The square-off block on a bar at or past the deadline empties the
ledger and appends one square-off event per previously open position. -/
theorem squareOffPhase_spec (cfg : ChargesConfig) (bar : Bar)
    (st st' : EngineState) (hmin : squareOffMinute ≤ bar.minute)
    (h : squareOffPhase cfg bar st = .ok st') :
    st'.long_positions = [] ∧
    st'.missed_signals = st.missed_signals ∧
    st'.daily_summary = st.daily_summary ∧
    st'.current_day = st.current_day ∧
    st'.start_of_day_capital = st.start_of_day_capital ∧
    ∃ new, st'.trades = st.trades ++ new ∧
      new.length = st.long_positions.length ∧
      ∀ e ∈ new, e.type = "Square Off" ∧
        e.reason = "Square Off Before Market Close" ∧ e.price = bar.close := by
  unfold squareOffPhase at h
  split at h
  · simp only [bind, Except.bind] at h
    cases hl : squareOffLoop cfg bar.day bar.minute bar.close
        st.long_positions st with
    | error e => rw [hl] at h; cases h
    | ok st1 =>
        rw [hl] at h
        injection h with h
        subst h
        obtain ⟨hp, hm, hd, hc, hs, new, hn1, hn2, hn3⟩ :=
          squareOffLoop_spec cfg bar.day bar.minute bar.close
            st.long_positions st st1 hl
        exact ⟨rfl, hm, hd, hc, hs, new, hn1, hn2, hn3⟩
  · injection h with h
    subst h
    next hng =>
      rw [not_and_or] at hng
      rcases hng with hng | hng
      · exact absurd hmin hng
      · rw [not_ne_iff] at hng
        exact ⟨hng, rfl, rfl, rfl, rfl, [], by simp, by simp [hng], by simp⟩

/-- With no buy signal the buy block is the identity. -/
theorem buyPhase_no_signal (p : SimParams) (bar : Bar) (st : EngineState)
    (h : bar.Buy_Signal = false) : buyPhase p bar st = .ok st := by
  unfold buyPhase
  rw [h]
  simp

/-- With an empty ledger the exit-evaluation block is the identity. -/
theorem exitPhase_empty (cfg : ChargesConfig) (bar : Bar) (st : EngineState)
    (h : st.long_positions = []) : exitPhase cfg bar st = .ok st := by
  unfold exitPhase
  rw [h]
  simp

/-- C9: after processing a bar at or past the square-off deadline the
ledger is empty; every position open at that bar was exited at the bar's
close price with reason `"Square Off Before Market Close"` (one appended
event per position, all of trade type `"Square Off"`, hence no `Buy`
event), so no open position survives past the deadline. -/
theorem C9_square_off_clears (p : SimParams) (st : EngineState) (bar : Bar)
    (st' : EngineState) (hmin : squareOffMinute ≤ bar.minute)
    (h : processBar p st bar = .ok st') :
    st'.long_positions = [] ∧
    ∃ new, st'.trades = st.trades ++ new ∧
      new.length = st.long_positions.length ∧
      ∀ e ∈ new, e.type = "Square Off" ∧
        e.reason = "Square Off Before Market Close" ∧ e.price = bar.close := by
  unfold processBar at h
  simp only [bind, Except.bind] at h
  cases hsq : squareOffPhase p.charges_config bar st with
  | error e => rw [hsq] at h; dsimp only at h; cases h
  | ok st1 =>
      rw [hsq] at h
      dsimp only at h
      obtain ⟨hp1, hm1, hd1, hc1, hs1, new, hn1, hn2, hn3⟩ :=
        squareOffPhase_spec p.charges_config bar st st1 hmin hsq
      have hro := rolloverPhase_fields bar st1
      split at h
      · injection h with h
        subst h
        refine ⟨?_, new, ?_, hn2, hn3⟩
        · show (rolloverPhase bar st1).long_positions = []
          rw [hro.2.2.2.1, hp1]
        · show (rolloverPhase bar st1).trades = st.trades ++ new
          rw [hro.2.2.1, hn1]
      · next hng =>
          have hbs : bar.Buy_Signal = false := by
            rw [not_and_or] at hng
            rcases hng with hng | hng
            · exact absurd (le_trans (by norm_num [noNewBuysMinute,
                squareOffMinute]) hmin) hng
            · cases hb : bar.Buy_Signal
              · rfl
              · exact absurd hb hng
          rw [buyPhase_no_signal p bar (rolloverPhase bar st1) hbs] at h
          dsimp only at h
          rw [exitPhase_empty p.charges_config bar (rolloverPhase bar st1)
            (by rw [hro.2.2.2.1, hp1])] at h
          injection h with h
          subst h
          refine ⟨by rw [hro.2.2.2.1, hp1], new, ?_, hn2, hn3⟩
          rw [hro.2.2.1, hn1]

/-! ## Identity lemmas for individual phases -/

/-- Before the square-off deadline the square-off block does nothing. -/
theorem squareOffPhase_skip (cfg : ChargesConfig) (bar : Bar)
    (st : EngineState) (h : bar.minute < squareOffMinute) :
    squareOffPhase cfg bar st = .ok st := by
  unfold squareOffPhase
  rw [if_neg]
  rintro ⟨h1, h2⟩
  exact absurd h1 (Nat.not_le.mpr h)

/-- With an empty ledger the square-off block does nothing. -/
theorem squareOffPhase_no_positions (cfg : ChargesConfig) (bar : Bar)
    (st : EngineState) (h : st.long_positions = []) :
    squareOffPhase cfg bar st = .ok st := by
  unfold squareOffPhase
  rw [if_neg]
  rintro ⟨h1, h2⟩
  exact h2 h

/-- Within the tracked day the rollover block does nothing. -/
theorem rolloverPhase_same_day (bar : Bar) (st : EngineState)
    (h : st.current_day = some bar.day) : rolloverPhase bar st = st := by
  unfold rolloverPhase
  rw [if_neg (by simp [h])]

/-- On a day change from a tracked day `d`, the rollover block finalizes the
day-`d` snapshot with the current capital and resets free cash to capital. -/
theorem rolloverPhase_new_day (bar : Bar) (st : EngineState) (d : ℕ)
    (hday : st.current_day = some d) (hne : d ≠ bar.day) :
    rolloverPhase bar st = { st with
      daily_summary := st.daily_summary ++
        [({ date := d, start_of_day_capital := st.start_of_day_capital,
            end_of_day_capital := st.capital } : DaySummary)],
      current_day := some bar.day,
      start_of_day_capital := st.capital,
      free_cash := st.capital,
      daily_margin_used := 0,
      daily_profit_loss := 0 } := by
  unfold rolloverPhase
  rw [hday, if_pos (by simpa using hne)]

/-! ## C1: buy gating skips the whole rest of the bar -/

/-- C1 (amended): on a bar at or past the no-new-buy deadline but before the
square-off deadline that carries a buy signal, the engine records the missed
signal and then skips the rest of the bar — in particular the per-position
exit evaluation: the ledger and the trade log are unchanged. -/
theorem C1_gated_bar_skips_exit (p : SimParams) (st : EngineState)
    (bar : Bar) (st' : EngineState)
    (hmin : noNewBuysMinute ≤ bar.minute)
    (hlt : bar.minute < squareOffMinute)
    (hbs : bar.Buy_Signal = true)
    (h : processBar p st bar = .ok st') :
    st'.long_positions = st.long_positions ∧
    st'.trades = st.trades ∧
    st'.missed_signals = st.missed_signals ++
      [({ day := bar.day, minute := bar.minute, price := bar.close,
          reason := "Buy restricted near market close" } : MissedSignal)] := by
  unfold processBar at h
  simp only [bind, Except.bind] at h
  rw [squareOffPhase_skip p.charges_config bar st hlt] at h
  dsimp only at h
  rw [if_pos ⟨hmin, hbs⟩] at h
  injection h with h
  subst h
  have hro := rolloverPhase_fields bar st
  exact ⟨hro.2.2.2.1, hro.2.2.1, by rw [hro.2.2.2.2]⟩

/-! ## C10: ordering of square-off and day rollover -/

/-- Modelled from the spec (section 4.3): the per-bar step with the day
rollover (step 1) performed before the scheduled square-off (step 2), the
order the spec prescribes; all phases are the source ones.  Used only to
compare against `processBar`, whose source order is square-off first. -/
def processBar_specOrder (p : SimParams) (st : EngineState) (bar : Bar) :
    Except EngineState EngineState := do
  let st1 := rolloverPhase bar st
  let st2 ← squareOffPhase p.charges_config bar st1
  if noNewBuysMinute ≤ bar.minute ∧ bar.Buy_Signal = true then
    .ok { st2 with missed_signals := st2.missed_signals ++
      [({ day := bar.day, minute := bar.minute, price := bar.close,
          reason := "Buy restricted near market close" } : MissedSignal)] }
  else do
    let st3 ← buyPhase p bar st2
    exitPhase p.charges_config bar st3

/-- Modelled from the spec: the bar loop over `processBar_specOrder`. -/
def runBarsFrom_specOrder (p : SimParams) :
    EngineState → ℕ → List Bar → Except (ℕ × EngineState) EngineState
  | st, _, [] => .ok st
  | st, i, bar :: rest =>
      match processBar_specOrder p st bar with
      | .error e => .error (i, e)
      | .ok st' => runBarsFrom_specOrder p st' (i + 1) rest

/-- Modelled from the spec: `runBars` in the spec's phase order. -/
def runBars_specOrder (p : SimParams) (bars : List Bar) :
    Except (ℕ × EngineState) EngineState :=
  runBarsFrom_specOrder p (initState p) 0 bars

/-- C10 (amended): on a bar that both begins a new calendar day and lies at
or past the square-off deadline, the scheduled square-off is performed
before the day rollover: the finalized previous-day snapshot's end-of-day
capital already contains this bar's square-off profit/loss (it equals the
bar's final capital), and the free-cash reset leaves free cash equal to
that same capital. -/
theorem C10_squareoff_precedes_rollover (p : SimParams) (st : EngineState)
    (bar : Bar) (st' : EngineState) (d : ℕ)
    (hmin : squareOffMinute ≤ bar.minute)
    (hday : st.current_day = some d) (hne : d ≠ bar.day)
    (h : processBar p st bar = .ok st') :
    st'.daily_summary = st.daily_summary ++
      [({ date := d, start_of_day_capital := st.start_of_day_capital,
          end_of_day_capital := st'.capital } : DaySummary)] ∧
    st'.free_cash = st'.capital := by
  unfold processBar at h
  simp only [bind, Except.bind] at h
  cases hsq : squareOffPhase p.charges_config bar st with
  | error e => rw [hsq] at h; dsimp only at h; cases h
  | ok st1 =>
      rw [hsq] at h
      dsimp only at h
      obtain ⟨hp1, hm1, hd1, hc1, hs1, new, hn1, hn2, hn3⟩ :=
        squareOffPhase_spec p.charges_config bar st st1 hmin hsq
      have hro := rolloverPhase_new_day bar st1 d (hc1.trans hday) hne
      split at h
      · injection h with h
        subst h
        rw [hro]
        dsimp only
        exact ⟨by rw [hd1, hs1], rfl⟩
      · next hng =>
          have hbs : bar.Buy_Signal = false := by
            rw [not_and_or] at hng
            rcases hng with hng | hng
            · exact absurd (le_trans (by norm_num [noNewBuysMinute,
                squareOffMinute]) hmin) hng
            · cases hb : bar.Buy_Signal
              · rfl
              · exact absurd hb hng
          rw [buyPhase_no_signal p bar (rolloverPhase bar st1) hbs] at h
          dsimp only at h
          rw [exitPhase_empty p.charges_config bar (rolloverPhase bar st1)
            (by rw [hro]; exact hp1)] at h
          injection h with h
          subst h
          rw [hro]
          dsimp only
          exact ⟨by rw [hd1, hs1], rfl⟩

/-! ## C4: free cash -/

/-- C4 (amended): with a trade allocation in [0,1] a buy never drives free
cash negative — an executed entry deducts `allocation × free_cash` and a
rejected or skipped entry leaves free cash unchanged — and the day-rollover
reset assigns `free_cash := capital` (which is negative exactly when
accumulated leveraged losses have driven capital below zero, the situation
of the counterexample). -/
theorem C4_buy_preserves_nonneg :
    (∀ (p : SimParams) (bar : Bar) (st st' : EngineState),
      0 ≤ p.trade_allocation → p.trade_allocation ≤ 1 →
      0 ≤ st.free_cash → buyPhase p bar st = .ok st' →
      0 ≤ st'.free_cash) ∧
    (∀ (bar : Bar) (st : EngineState),
      st.current_day ≠ some bar.day →
      (rolloverPhase bar st).free_cash = st.capital) := by
  constructor
  · intro p bar st st' ha0 ha1 hf h
    unfold buyPhase at h
    dsimp only at h
    repeat' split at h
    all_goals
      first
        | (injection h with h; subst h;
            first
              | exact hf
              | (dsimp only
                 nlinarith [mul_nonneg hf (sub_nonneg.mpr ha1)])
              | nlinarith [mul_nonneg hf (sub_nonneg.mpr ha1)])
        | injection h
  · intro bar st h
    unfold rolloverPhase
    rw [if_pos h]
    rcases hc : st.current_day with _ | d <;> simp [hc]

/-! ## C7: missing charge rates -/

/-- A missing BUY brokerage rate makes the charges calculator fail. -/
theorem calculate_buy_brokerage_missing (price : ℚ) (quantity : ℤ)
    (cfg : ChargesConfig) (h : cfg.buy.BROKERAGE = none) :
    calculate_transaction_charges price quantity .BUY cfg = none := by
  simp [calculate_transaction_charges, ChargesConfig.ratesFor, h,
    Option.bind, bind]

/-- C7 (amended): a missing charge rate does not fail fast.  A bar that
computes no charge is processed normally even under a broken configuration
(first conjunct), and the failure surfaces only at the first charge
computation, mid-run, as a lookup error carrying the engine state — with
all events recorded so far — at that point (second conjunct). -/
theorem C7_lookup_failure_is_lazy :
    (∀ (p : SimParams) (st : EngineState) (bar : Bar),
      st.long_positions = [] → bar.Buy_Signal = false →
      ∃ st', processBar p st bar = .ok st') ∧
    (∀ (p : SimParams) (st : EngineState) (bar : Bar),
      st.current_day = some bar.day → st.long_positions = [] →
      bar.Buy_Signal = true → bar.minute < noNewBuysMinute →
      p.charges_config.buy.BROKERAGE = none →
      bar.close ≤ st.free_cash * p.trade_allocation * p.leverage →
      0 < ⌊st.free_cash * p.trade_allocation * p.leverage / bar.close⌋ →
      processBar p st bar = .error st) := by
  constructor
  · intro p st bar hpos hbs
    refine ⟨rolloverPhase bar st, ?_⟩
    unfold processBar
    simp only [bind, Except.bind]
    rw [squareOffPhase_no_positions p.charges_config bar st hpos]
    dsimp only
    rw [if_neg (by simp [hbs])]
    rw [buyPhase_no_signal p bar (rolloverPhase bar st) hbs]
    dsimp only
    rw [exitPhase_empty p.charges_config bar (rolloverPhase bar st)
      (by rw [(rolloverPhase_fields bar st).2.2.2.1]; exact hpos)]
  · intro p st bar hday hpos hbs hmin hbroker hle hfl
    unfold processBar
    simp only [bind, Except.bind]
    rw [squareOffPhase_no_positions p.charges_config bar st hpos]
    dsimp only
    rw [if_neg (by rintro ⟨h1, h2⟩; exact absurd h1 (Nat.not_le.mpr hmin))]
    rw [rolloverPhase_same_day bar st hday]
    unfold buyPhase
    rw [hbs]
    dsimp only
    rw [if_pos hle, if_pos hfl,
      calculate_buy_brokerage_missing bar.close _ p.charges_config hbroker]
    simp

/-! ## C8: no validation of price/ATR -/

/-- C8 (amended): the engine performs no validation of the bar's ATR: a buy
on a bar with non-positive ATR is executed as usual and the ATR value
propagates into the trailing-stop computation, so every position the buy
block adds on such a bar has its trailing stop at or above the entry price
(typically forcing an immediate same-bar stop-out, as in the
counterexample). -/
theorem C8_nonpositive_atr_propagates (p : SimParams) (bar : Bar)
    (st st' : EngineState) (hatr : bar.ATR ≤ 0)
    (hmult : 0 ≤ p.atr_multiplier) (h : buyPhase p bar st = .ok st') :
    ∀ q ∈ st'.long_positions,
      q ∈ st.long_positions ∨ bar.close ≤ q.trailing_stop_loss := by
  unfold buyPhase at h
  dsimp only at h
  repeat' split at h
  all_goals
    first
      | (injection h with h; subst h; intro q hq;
          first
            | exact Or.inl hq
            | (dsimp only at hq
               rw [List.mem_append] at hq
               rcases hq with hq | hq
               · exact Or.inl hq
               · rw [List.mem_singleton] at hq
                 subst hq
                 refine Or.inr ?_
                 dsimp only
                 nlinarith [mul_nonneg (neg_nonneg.mpr hatr) hmult]))
      | cases h

/-! ## Concrete runs: counterexamples and witnesses -/

/-- All-zero rate table: every charge computes to zero, keeping concrete
run arithmetic simple. -/
def cfg0 : ChargesConfig :=
  { buy := ⟨some 0, some 0, some 0, some 0, some 0, some 0⟩,
    sell := ⟨some 0, some 0, some 0, some 0, some 0, some 0⟩ }

/-- The all-zero charges breakdown produced under `cfg0`. -/
def cd0 : ChargesDetails := ⟨0, 0, 0, 0, 0, 0, 0⟩

/-- Allocation 1, leverage 1. -/
def pOne : SimParams := ⟨1000, 1, 1, 5, 1, cfg0⟩

/-- Allocation 1/2, leverage 1. -/
def pHalf : SimParams := ⟨1000, 1/2, 1, 5, 1, cfg0⟩

/-- Allocation 1, leverage 10. -/
def pLev : SimParams := ⟨1000, 1, 10, 5, 1, cfg0⟩

/-- Morning bar with a buy signal at price 100, ATR 1. -/
def barBuy : Bar := ⟨0, 600, 100, 1, true, false⟩

/-- Day-0 bar at 14:40 (inside the no-new-buy window, before square-off)
with both signals set, price 110. -/
def barC1 : Bar := ⟨0, 880, 110, 1, true, true⟩

/-- Day-0 bar at the square-off deadline, no signals, price 110. -/
def barC9 : Bar := ⟨0, 900, 110, 1, false, false⟩

/-- Day-1 bar at the square-off deadline, no signals, price 110. -/
def barDay1Sq : Bar := ⟨1, 900, 110, 1, false, false⟩

/-- Morning buy-signal bar with a negative ATR. -/
def barAtrNeg : Bar := ⟨0, 600, 100, -1, true, false⟩

/-- A state with one open position `posW` (margin 500 reserved). -/
def stOne : EngineState :=
  { capital := 1000, free_cash := 0, total_profit_loss := 0,
    total_revenue := 0, total_cost := 1000, trades := [],
    missed_signals := [], daily_summary := [], long_positions := [posW],
    current_day := some 0, start_of_day_capital := 1000,
    daily_margin_used := 500, daily_profit_loss := 0 }

/-- `stOne` after the gated bar `barC1`: only the missed signal is added. -/
def stC1post : EngineState :=
  { capital := 1000, free_cash := 0, total_profit_loss := 0,
    total_revenue := 0, total_cost := 1000, trades := [],
    missed_signals := [⟨0, 880, 110, "Buy restricted near market close"⟩],
    daily_summary := [], long_positions := [posW], current_day := some 0,
    start_of_day_capital := 1000, daily_margin_used := 500,
    daily_profit_loss := 0 }

/-- C1 (counterexample): on a gated bar (14:40, buy signal present and
recorded as missed) with an open position whose exit conditions hold —
the sell signal is set and the price 110 is above the target 105 — the
engine leaves the position open and records no exit trade: the `continue`
after the missed signal skips the exit evaluation, contradicting the claim
that gating suppresses only the entry. -/
theorem C1_exit_skipped_counterexample :
    barC1.Sell_Signal = true ∧
    posW.target_price ≤ barC1.close ∧
    noNewBuysMinute ≤ barC1.minute ∧ barC1.minute < squareOffMinute ∧
    processBar pHalf stOne barC1 = .ok stC1post ∧
    stC1post.long_positions = [posW] ∧ stC1post.trades = [] := by
  refine ⟨rfl, by norm_num [posW, barC1], by norm_num [noNewBuysMinute, barC1],
    by norm_num [squareOffMinute, barC1], ?_, rfl, rfl⟩
  rfl

/-- Witness for the amended C1 on the same gated bar. -/
theorem C1_gated_bar_skips_exit_witness :
    stC1post.long_positions = stOne.long_positions ∧
    stC1post.trades = stOne.trades ∧
    stC1post.missed_signals = stOne.missed_signals ++
      [({ day := barC1.day, minute := barC1.minute, price := barC1.close,
          reason := "Buy restricted near market close" } : MissedSignal)] :=
  C1_gated_bar_skips_exit pHalf stOne barC1 stC1post
    (by norm_num [noNewBuysMinute, barC1])
    (by norm_num [squareOffMinute, barC1]) rfl (by rfl)

/-- `stOne` after the square-off bar `barC9`. -/
def stC9post : EngineState :=
  { capital := 1100, free_cash := 1600, total_profit_loss := 100,
    total_revenue := 0, total_cost := 1000,
    trades := [⟨0, 900, "Square Off", 110, 10, 100, cd0,
      "Square Off Before Market Close"⟩],
    missed_signals := [], daily_summary := [], long_positions := [],
    current_day := some 0, start_of_day_capital := 1000,
    daily_margin_used := 500, daily_profit_loss := 100 }

/-- Witness for C9 on a concrete square-off bar. -/
theorem C9_square_off_clears_witness :
    stC9post.long_positions = [] ∧
    ∃ new, stC9post.trades = stOne.trades ++ new ∧
      new.length = stOne.long_positions.length ∧
      ∀ e ∈ new, e.type = "Square Off" ∧
        e.reason = "Square Off Before Market Close" ∧ e.price = barC9.close :=
  C9_square_off_clears pHalf stOne barC9 stC9post
    (by norm_num [squareOffMinute, barC9])
    (by iterate 6
          try simp [processBar, squareOffPhase, rolloverPhase, buyPhase,
            exitPhase, exitLoop, squareOffLoop, sellFill, exitReason,
            calculate_transaction_charges, ChargesConfig.ratesFor,
            squareOffMinute, noNewBuysMinute, pHalf, stOne, barC9, posW,
            cfg0, cd0, stC9post, Except.map, Except.bind, Option.bind, bind,
            pure, min_def]
          try norm_num)

/-- The two-bar sequence: a morning buy on day 0, then a square-off bar on
day 1 (the position is held overnight because day 0's data ends early). -/
def barsC10 : List Bar := [barBuy, barDay1Sq]

/-- C10 (counterexample): on the bar that both begins day 1 and squares
off the overnight position at a profit, the engine records day 0's
end-of-day capital as 1100 — the capital after this bar's square-off —
whereas the claimed order (rollover before square-off) records 1000. -/
theorem C10_order_counterexample :
    (runBars pOne barsC10).map EngineState.daily_summary
      = .ok [({ date := 0, start_of_day_capital := 1000,
                end_of_day_capital := 1100 } : DaySummary)] ∧
    (runBars_specOrder pOne barsC10).map EngineState.daily_summary
      = .ok [({ date := 0, start_of_day_capital := 1000,
                end_of_day_capital := 1000 } : DaySummary)] ∧
    (1100 : ℚ) ≠ 1000 := by
  refine ⟨?_, ?_, by norm_num⟩ <;>
    iterate 8
      try simp [runBars, runBarsFrom, runBars_specOrder,
        runBarsFrom_specOrder, processBar, processBar_specOrder,
        squareOffPhase, rolloverPhase, buyPhase, exitPhase, exitLoop,
        squareOffLoop, sellFill, exitReason, calculate_transaction_charges,
        ChargesConfig.ratesFor, initState, squareOffMinute, noNewBuysMinute,
        pOne, barsC10, barBuy, barDay1Sq, cfg0, cd0, Except.map,
        Except.bind, Option.bind, bind, pure, min_def]
      try norm_num

/-- The open position created by `barBuy` under `pOne`. -/
def posB : Position := ⟨10, 100, 0, 1000, 105, 99⟩

/-- The buy trade event of `barBuy` under `pOne`. -/
def buyEv : TradeEvent := ⟨0, 600, "Buy", 100, 10, 0, cd0, "Buy Signal"⟩

/-- The state after `barBuy` under `pOne` (also the state produced by
`buyPhase` alone from `stQuiet`). -/
def stD0 : EngineState :=
  { capital := 1000, free_cash := 0, total_profit_loss := 0,
    total_revenue := 0, total_cost := 1000, trades := [buyEv],
    missed_signals := [], daily_summary := [], long_positions := [posB],
    current_day := some 0, start_of_day_capital := 1000,
    daily_margin_used := 1000, daily_profit_loss := 0 }

/-- The state after the day-1 square-off bar from `stD0`. -/
def stD1 : EngineState :=
  { capital := 1100, free_cash := 1100, total_profit_loss := 100,
    total_revenue := 0, total_cost := 1000,
    trades := [buyEv, ⟨1, 900, "Square Off", 110, 10, 100, cd0,
      "Square Off Before Market Close"⟩],
    missed_signals := [], daily_summary := [⟨0, 1000, 1100⟩],
    long_positions := [], current_day := some 1,
    start_of_day_capital := 1100, daily_margin_used := 0,
    daily_profit_loss := 0 }

/-- Witness for the amended C10 on the same day-crossing square-off bar. -/
theorem C10_squareoff_precedes_rollover_witness :
    stD1.daily_summary = stD0.daily_summary ++
      [({ date := 0, start_of_day_capital := stD0.start_of_day_capital,
          end_of_day_capital := stD1.capital } : DaySummary)] ∧
    stD1.free_cash = stD1.capital :=
  C10_squareoff_precedes_rollover pOne stD0 barDay1Sq stD1 0
    (by norm_num [squareOffMinute, barDay1Sq]) rfl (by norm_num [barDay1Sq])
    (by iterate 6
          try simp [processBar, squareOffPhase, rolloverPhase, buyPhase,
            exitPhase, exitLoop, squareOffLoop, sellFill, exitReason,
            calculate_transaction_charges, ChargesConfig.ratesFor,
            squareOffMinute, noNewBuysMinute, pOne, stD0, stD1, barDay1Sq,
            posB, buyEv, cfg0, cd0, Except.map, Except.bind, Option.bind,
            bind, pure, min_def]
          try norm_num)

/-- Day-0 bar at 10:10 with a sell signal and a crashed price of 1. -/
def barSellCrash : Bar := ⟨0, 610, 1, 1, false, true⟩

/-- Quiet day-1 bar at the crashed price. -/
def barDay1Quiet : Bar := ⟨1, 600, 1, 1, false, false⟩

/-- Three bars: leveraged buy, crash exit at a loss exceeding capital,
then the day-1 rollover. -/
def barsC4 : List Bar := [barBuy, barSellCrash, barDay1Quiet]

/-- C4 (counterexample): with allocation 1 and leverage 10, a crash exit
realizes a loss of 9900 on initial capital 1000, so capital goes to −8900;
the next day's rollover assigns `free_cash := capital`, leaving free cash
at −8900 < 0 at a between-bar observation point. -/
theorem C4_free_cash_counterexample :
    (runBars pLev barsC4).map EngineState.free_cash = .ok (-8900) ∧
    ((-8900 : ℚ) < 0) := by
  refine ⟨?_, by norm_num⟩
  iterate 8
    try simp [runBars, runBarsFrom, processBar, squareOffPhase,
      rolloverPhase, buyPhase, exitPhase, exitLoop, squareOffLoop, sellFill,
      exitReason, calculate_transaction_charges, ChargesConfig.ratesFor,
      initState, squareOffMinute, noNewBuysMinute, pLev, barsC4, barBuy,
      barSellCrash, barDay1Quiet, cfg0, cd0, Except.map, Except.bind,
      Option.bind, bind, pure, min_def]
    try norm_num

/-- Witness for the amended C4: an executed buy keeps free cash
non-negative, and the rollover reset is `free_cash := capital`. -/
theorem C4_buy_preserves_nonneg_witness :
    0 ≤ stD0.free_cash ∧
    (rolloverPhase barDay1Quiet stQuiet).free_cash = stQuiet.capital :=
  ⟨C4_buy_preserves_nonneg.1 pOne barBuy stQuiet stD0 (by norm_num [pOne])
      (by norm_num [pOne]) (by norm_num [stQuiet])
      (by iterate 6
            try simp [buyPhase, calculate_transaction_charges,
              ChargesConfig.ratesFor, pOne, barBuy, stQuiet, stD0, posB,
              buyEv, cfg0, cd0, Except.map, Except.bind, Option.bind, bind,
              pure, min_def]
            try norm_num),
    C4_buy_preserves_nonneg.2 barDay1Quiet stQuiet
      (by simp [stQuiet, barDay1Quiet])⟩

/-- Rate table with the BUY brokerage rate missing. -/
def cfgMissing : ChargesConfig :=
  { buy := ⟨none, some 0, some 0, some 0, some 0, some 0⟩,
    sell := ⟨some 0, some 0, some 0, some 0, some 0, some 0⟩ }

/-- Parameters using the broken rate table. -/
def pMiss : SimParams := ⟨1000, 1, 1, 5, 1, cfgMissing⟩

/-- Day-0 bar at 14:40 with a buy signal (gated: no charge computed). -/
def barGate880 : Bar := ⟨0, 880, 100, 1, true, false⟩

/-- Day-1 morning buy-signal bar (first charge computation). -/
def barBuyDay1 : Bar := ⟨1, 600, 100, 1, true, false⟩

/-- Two bars under the broken configuration. -/
def barsC7 : List Bar := [barGate880, barBuyDay1]

/-- The engine state at the moment the missing-rate lookup fails: bar 0 has
been fully processed (its missed signal is recorded) and bar 1's rollover
has run. -/
def stC7err : EngineState :=
  { capital := 1000, free_cash := 1000, total_profit_loss := 0,
    total_revenue := 0, total_cost := 0, trades := [],
    missed_signals := [⟨0, 880, 100, "Buy restricted near market close"⟩],
    daily_summary := [⟨0, 1000, 1000⟩], long_positions := [],
    current_day := some 1, start_of_day_capital := 1000,
    daily_margin_used := 0, daily_profit_loss := 0 }

/-- C7 (counterexample): with the BUY brokerage rate absent the run does
not fail before any bar is processed — it fails at bar index 1, at the
first charge computation, after bar 0 was fully processed and produced a
missed-signal event. -/
theorem C7_failfast_counterexample :
    cfgMissing.buy.BROKERAGE = none ∧
    runBars pMiss barsC7 = .error (1, stC7err) ∧
    stC7err.missed_signals ≠ [] := by
  refine ⟨rfl, ?_, by simp [stC7err]⟩
  iterate 8
    try simp [runBars, runBarsFrom, processBar, squareOffPhase,
      rolloverPhase, buyPhase, exitPhase, exitLoop, squareOffLoop, sellFill,
      exitReason, calculate_transaction_charges, ChargesConfig.ratesFor,
      initState, squareOffMinute, noNewBuysMinute, pMiss, barsC7, barGate880,
      barBuyDay1, cfgMissing, stC7err, Except.map, Except.bind, Option.bind,
      bind, pure, min_def]
    try norm_num

/-- Witness for the amended C7: a quiet bar succeeds under the broken
configuration, and a bar that computes a BUY charge fails with the state
at that point. -/
theorem C7_lookup_failure_is_lazy_witness :
    (∃ st', processBar pMiss (initState pMiss) barQuiet = .ok st') ∧
    processBar pMiss stQuiet barBuy = .error stQuiet :=
  ⟨C7_lookup_failure_is_lazy.1 pMiss (initState pMiss) barQuiet rfl rfl,
    C7_lookup_failure_is_lazy.2 pMiss stQuiet barBuy rfl rfl rfl
      (by norm_num [noNewBuysMinute, barBuy]) rfl
      (by norm_num [stQuiet, pMiss, barBuy])
      (by norm_num [stQuiet, pMiss, barBuy])⟩

/-- The one-bar sequence with a negative ATR. -/
def barsC8 : List Bar := [barAtrNeg]

/-- C8 (counterexample): the bar with ATR = −1 is not rejected: the engine
executes the buy, the negative ATR flows into the trailing stop (101,
above the entry price 100), and the position is immediately stopped out on
the same bar. -/
theorem C8_rejection_counterexample :
    barAtrNeg.ATR < 0 ∧
    (runBars pOne barsC8).map
        (fun st => st.trades.map (fun e => (e.type, e.reason)))
      = .ok [("Buy", "Buy Signal"),
             ("Sell", "Trailing Stop-Loss Triggered")] := by
  refine ⟨by norm_num [barAtrNeg], ?_⟩
  iterate 8
    try simp [runBars, runBarsFrom, processBar, squareOffPhase,
      rolloverPhase, buyPhase, exitPhase, exitLoop, squareOffLoop, sellFill,
      exitReason, calculate_transaction_charges, ChargesConfig.ratesFor,
      initState, squareOffMinute, noNewBuysMinute, pOne, barsC8, barAtrNeg,
      cfg0, cd0, Except.map, Except.bind, Option.bind, bind, pure, min_def]
    try norm_num

/-- The position created on the negative-ATR bar: trailing stop 101 above
the entry price 100. -/
def posAtr : Position := ⟨10, 100, 0, 1000, 105, 101⟩

/-- `stQuiet` after `buyPhase` on the negative-ATR bar. -/
def stAtrPost : EngineState :=
  { capital := 1000, free_cash := 0, total_profit_loss := 0,
    total_revenue := 0, total_cost := 1000, trades := [buyEv],
    missed_signals := [], daily_summary := [], long_positions := [posAtr],
    current_day := some 0, start_of_day_capital := 1000,
    daily_margin_used := 1000, daily_profit_loss := 0 }

/-- Witness for the amended C8: the concrete position opened on the
negative-ATR bar has its trailing stop at or above the entry price. -/
theorem C8_nonpositive_atr_propagates_witness :
    posAtr ∈ stQuiet.long_positions ∨
    barAtrNeg.close ≤ posAtr.trailing_stop_loss :=
  C8_nonpositive_atr_propagates pOne barAtrNeg stQuiet stAtrPost
    (by norm_num [barAtrNeg]) (by norm_num [pOne])
    (by iterate 6
          try simp [buyPhase, calculate_transaction_charges,
            ChargesConfig.ratesFor, pOne, barAtrNeg, stQuiet, stAtrPost,
            posAtr, buyEv, cfg0, cd0, Except.map, Except.bind, Option.bind,
            bind, pure, min_def]
          try norm_num)
    posAtr (by simp [stAtrPost])

end AngelOne
